import Mathlib

/-!
Verification development for the decision-log plugin server.

Shallow embedding of the storage layer (src/server/src/storage.ts), the
project-identity resolver (project-slug.ts), and the lifecycle hooks
(src/server/src/hook-helpers.ts).  Persisted collection files are modelled
as a JSON value tree together with the failure modes the code distinguishes
(file absent, read error, parse error); JSON serialisation of the record
types is modelled by explicit by-key encoders and decoders, with the
round-trip law proved below standing in for JSON.stringify followed by
JSON.parse plus dynamic field access.
-/

namespace DecisionLog

/-! ### Data model (src/server/src/types.ts) -/

/-- One considered option of a decision: a name and description pair. -/
structure DecisionOption where
  name : String
  description : String
deriving DecidableEq, Repr

/-- A project-scoped decision record. -/
structure Decision where
  id : String
  timestamp : String
  session_id : String
  topic : String
  options : List DecisionOption
  chosen : String
  rationale : String
  tags : List String
deriving DecidableEq, Repr

/-- Outcome of one approach: the string enum failed | succeeded. -/
inductive Outcome where
  | failed
  | succeeded
deriving DecidableEq, Repr

/-- One attempt logged against a problem. -/
structure Approach where
  approach : String
  outcome : Outcome
  details : String
  timestamp : String
deriving DecidableEq, Repr

/-- Problem status: the string enum open | resolved. -/
inductive Status where
  | open_
  | resolved
deriving DecidableEq, Repr

/-- A session-scoped problem (aka investigation) record. -/
structure Problem where
  id : String
  session_id : String
  problem : String
  status : Status
  created_at : String
  approaches : List Approach
  resolution : Option String
deriving DecidableEq, Repr

/-- Session metadata written once per session directory. -/
structure SessionMetadata where
  session_id : String
  project_slug : String
  cwd : String
  started_at : String
deriving DecidableEq, Repr

/-! ### JSON values and by-key field access -/

/-- A JSON value tree, the result of a successful JSON.parse. -/
inductive Json where
  | null
  | bool (b : Bool)
  | num (n : Int)
  | str (s : String)
  | arr (elems : List Json)
  | obj (fields : List (String × Json))

/-- First-match field lookup in an object field list. -/
def findField : List (String × Json) → String → Option Json
  | [], _ => none
  | (k, v) :: rest, key => if k = key then some v else findField rest key

/-- Field access on a JSON value; non-objects have no fields. -/
def Json.getField (j : Json) (key : String) : Option Json :=
  match j with
  | .obj fields => findField fields key
  | _ => none

/-- Read a JSON string value. -/
def decodeString : Json → Option String
  | .str s => some s
  | _ => none

/-- Decode every element of a JSON array with one decoder; any failure
fails the whole list. -/
def decodeList {α : Type} (dec : Json → Option α) : List Json → Option (List α)
  | [] => some []
  | j :: js =>
    match dec j, decodeList dec js with
    | some a, some as => some (a :: as)
    | _, _ => none

/-! ### Codecs for the record types (modelling JSON.stringify / JSON.parse) -/

/-- Serialise one decision option. -/
def encodeOption (o : DecisionOption) : Json :=
  .obj [("name", .str o.name), ("description", .str o.description)]

/-- Read back one decision option by key. -/
def decodeOptionEntry (j : Json) : Option DecisionOption :=
  match (j.getField "name").bind decodeString,
        (j.getField "description").bind decodeString with
  | some n, some de => some ⟨n, de⟩
  | _, _ => none

/-- Serialise one decision with the fields written by the server. -/
def encodeDecision (d : Decision) : Json :=
  .obj [("id", .str d.id), ("timestamp", .str d.timestamp),
        ("session_id", .str d.session_id), ("topic", .str d.topic),
        ("options", .arr (d.options.map encodeOption)),
        ("chosen", .str d.chosen), ("rationale", .str d.rationale),
        ("tags", .arr (d.tags.map Json.str))]

/-- Read back one decision by key. -/
def decodeDecision (j : Json) : Option Decision :=
  match (j.getField "id").bind decodeString,
        (j.getField "timestamp").bind decodeString,
        (j.getField "session_id").bind decodeString,
        (j.getField "topic").bind decodeString,
        (match j.getField "options" with
         | some (.arr xs) => decodeList decodeOptionEntry xs
         | _ => none),
        (j.getField "chosen").bind decodeString,
        (j.getField "rationale").bind decodeString,
        (match j.getField "tags" with
         | some (.arr xs) => decodeList decodeString xs
         | _ => none) with
  | some i, some ts, some sid, some tp, some os, some ch, some ra, some tg =>
    some ⟨i, ts, sid, tp, os, ch, ra, tg⟩
  | _, _, _, _, _, _, _, _ => none

/-- Serialise a decisions collection (a JSON array). -/
def encodeDecisions (ds : List Decision) : Json :=
  .arr (ds.map encodeDecision)

/-- Read back a decisions collection. -/
def decodeDecisions (j : Json) : Option (List Decision) :=
  match j with
  | .arr xs => decodeList decodeDecision xs
  | _ => none

/-- Serialise an outcome to its string form. -/
def encodeOutcome : Outcome → Json
  | .failed => .str "failed"
  | .succeeded => .str "succeeded"

/-- Read back an outcome from its string form. -/
def decodeOutcome : Json → Option Outcome
  | .str "failed" => some .failed
  | .str "succeeded" => some .succeeded
  | _ => none

/-- Serialise a status to its string form. -/
def encodeStatus : Status → Json
  | .open_ => .str "open"
  | .resolved => .str "resolved"

/-- Read back a status from its string form. -/
def decodeStatus : Json → Option Status
  | .str "open" => some .open_
  | .str "resolved" => some .resolved
  | _ => none

/-- Serialise one approach. -/
def encodeApproach (a : Approach) : Json :=
  .obj [("approach", .str a.approach), ("outcome", encodeOutcome a.outcome),
        ("details", .str a.details), ("timestamp", .str a.timestamp)]

/-- Read back one approach by key. -/
def decodeApproach (j : Json) : Option Approach :=
  match (j.getField "approach").bind decodeString,
        (j.getField "outcome").bind decodeOutcome,
        (j.getField "details").bind decodeString,
        (j.getField "timestamp").bind decodeString with
  | some ap, some oc, some de, some ts => some ⟨ap, oc, de, ts⟩
  | _, _, _, _ => none

/-- Serialise one problem; the optional resolution field is omitted when
absent, as JSON.stringify omits undefined properties. -/
def encodeProblem (p : Problem) : Json :=
  .obj ([("id", .str p.id), ("session_id", .str p.session_id),
         ("problem", .str p.problem), ("status", encodeStatus p.status),
         ("created_at", .str p.created_at),
         ("approaches", .arr (p.approaches.map encodeApproach))] ++
        (match p.resolution with
         | some r => [("resolution", .str r)]
         | none => []))

/-- Read back one problem by key; a missing resolution key reads as none. -/
def decodeProblem (j : Json) : Option Problem :=
  match (j.getField "id").bind decodeString,
        (j.getField "session_id").bind decodeString,
        (j.getField "problem").bind decodeString,
        (j.getField "status").bind decodeStatus,
        (j.getField "created_at").bind decodeString,
        (match j.getField "approaches" with
         | some (.arr xs) => decodeList decodeApproach xs
         | _ => none) with
  | some i, some sid, some pr, some st, some ca, some aps =>
    some ⟨i, sid, pr, st, ca, aps,
          match j.getField "resolution" with
          | some (.str r) => some r
          | _ => none⟩
  | _, _, _, _, _, _ => none

/-- Serialise a problems collection (a JSON array). -/
def encodeProblems (ps : List Problem) : Json :=
  .arr (ps.map encodeProblem)

/-- Read back a problems collection. -/
def decodeProblems (j : Json) : Option (List Problem) :=
  match j with
  | .arr xs => decodeList decodeProblem xs
  | _ => none

/-! ### Round-trip laws for the codecs -/

theorem decodeList_map {α : Type} (dec : Json → Option α) (enc : α → Json)
    (h : ∀ a, dec (enc a) = some a) :
    ∀ l : List α, decodeList dec (l.map enc) = some l := by
  intro l
  induction l with
  | nil => rfl
  | cons a as ih => simp [decodeList, h, ih]

theorem decodeOptionEntry_encode (o : DecisionOption) :
    decodeOptionEntry (encodeOption o) = some o := rfl

theorem decodeDecision_encode (d : Decision) :
    decodeDecision (encodeDecision d) = some d := by
  have h1 : decodeList decodeOptionEntry (d.options.map encodeOption) =
      some d.options :=
    decodeList_map decodeOptionEntry encodeOption decodeOptionEntry_encode
      d.options
  have h2 : decodeList decodeString (d.tags.map Json.str) = some d.tags :=
    decodeList_map decodeString Json.str (fun _ => rfl) d.tags
  simp only [decodeDecision, h1, h2,
    show (encodeDecision d).getField "id" = some (.str d.id) from rfl,
    show (encodeDecision d).getField "timestamp" = some (.str d.timestamp)
      from rfl,
    show (encodeDecision d).getField "session_id" = some (.str d.session_id)
      from rfl,
    show (encodeDecision d).getField "topic" = some (.str d.topic) from rfl,
    show (encodeDecision d).getField "options" =
      some (.arr (d.options.map encodeOption)) from rfl,
    show (encodeDecision d).getField "chosen" = some (.str d.chosen) from rfl,
    show (encodeDecision d).getField "rationale" = some (.str d.rationale)
      from rfl,
    show (encodeDecision d).getField "tags" =
      some (.arr (d.tags.map Json.str)) from rfl,
    Option.bind, decodeString]

theorem decodeDecisions_encode (ds : List Decision) :
    decodeDecisions (encodeDecisions ds) = some ds :=
  decodeList_map decodeDecision encodeDecision decodeDecision_encode ds

theorem decodeApproach_encode (a : Approach) :
    decodeApproach (encodeApproach a) = some a := by
  cases a with
  | mk ap oc de ts => cases oc <;> rfl

theorem gf_problem_resolution (p : Problem) :
    (encodeProblem p).getField "resolution" =
      (p.resolution).map Json.str := by
  cases p with
  | mk i sid pr st ca aps res => cases res <;> cases st <;> rfl

theorem decodeProblem_encode (p : Problem) :
    decodeProblem (encodeProblem p) = some p := by
  have h1 : decodeList decodeApproach (p.approaches.map encodeApproach) =
      some p.approaches :=
    decodeList_map decodeApproach encodeApproach decodeApproach_encode
      p.approaches
  have hid : (encodeProblem p).getField "id" = some (.str p.id) := by
    cases p with
    | mk i sid pr st ca aps res => rfl
  have hsid : (encodeProblem p).getField "session_id" =
      some (.str p.session_id) := by
    cases p with
    | mk i sid pr st ca aps res => rfl
  have hpr : (encodeProblem p).getField "problem" = some (.str p.problem) := by
    cases p with
    | mk i sid pr st ca aps res => rfl
  have hst : (encodeProblem p).getField "status" =
      some (encodeStatus p.status) := by
    cases p with
    | mk i sid pr st ca aps res => rfl
  have hca : (encodeProblem p).getField "created_at" =
      some (.str p.created_at) := by
    cases p with
    | mk i sid pr st ca aps res => rfl
  have haps : (encodeProblem p).getField "approaches" =
      some (.arr (p.approaches.map encodeApproach)) := by
    cases p with
    | mk i sid pr st ca aps res => rfl
  have hres := gf_problem_resolution p
  have hdst : ∀ st : Status, decodeStatus (encodeStatus st) = some st := by
    intro st
    cases st <;> rfl
  simp only [decodeProblem, hid, hsid, hpr, hst, hca, haps, hres, h1,
    Option.bind, decodeString, hdst]
  cases p with
  | mk i sid pr st ca aps res => cases res <;> rfl

theorem decodeProblems_encode (ps : List Problem) :
    decodeProblems (encodeProblems ps) = some ps :=
  decodeList_map decodeProblem encodeProblem decodeProblem_encode ps

/-! ### Persisted files and the Storage operations (storage.ts) -/

/-- The observable states of a stored collection file, matching the failure
modes the code's try/catch distinguishes: the file may be missing, the read
may raise, JSON.parse may raise, or parsing yields a JSON value. -/
inductive StoredFile where
  | absent
  | unreadable
  | notJson
  | json (j : Json)

/-- The try-block of readDecisions: read and parse the decisions file,
failing on a missing or unreadable file, a parse error, or content that is
not a decisions array. -/
def parseDecisionsFile : StoredFile → Except Unit (List Decision)
  | .json j =>
    match decodeDecisions j with
    | some ds => .ok ds
    | none => .error ()
  | _ => .error ()

/-- readDecisions: the try-block result, with every failure caught and
collapsed to the empty collection (storage.ts lines 43-49). -/
def readDecisions (f : StoredFile) : List Decision :=
  match parseDecisionsFile f with
  | .ok ds => ds
  | .error _ => []

/-- addDecision: read the current sequence, append, write the whole file
back (storage.ts lines 51-55). -/
def addDecision (f : StoredFile) (d : Decision) : StoredFile :=
  .json (encodeDecisions (readDecisions f ++ [d]))

/-- Substring containment on strings, modelling the String.prototype
includes check: the second string occurs contiguously in the first. -/
def strContains (s sub : String) : Bool :=
  decide (sub.data <:+: s.data)

/-- The text-match test of searchDecisions for a lowercased query: the
query occurs in the lowercased topic, chosen, rationale, or some option
name or description (storage.ts lines 61-70). -/
def decisionMatchesQuery (q : String) (d : Decision) : Bool :=
  strContains d.topic.toLower q || strContains d.chosen.toLower q ||
  strContains d.rationale.toLower q ||
  d.options.any (fun o =>
    strContains o.name.toLower q || strContains o.description.toLower q)

/-- searchDecisions: filter the stored decisions, skipping the text filter
when the query is absent or empty (a falsy JS string) and the tag filter
when tags are absent or empty; a decision passes the tag filter when some
filter tag is an element of its tag list (storage.ts lines 57-78). -/
def searchDecisions (f : StoredFile) (query : Option String)
    (tags : Option (List String)) : List Decision :=
  (readDecisions f).filter fun d =>
    (match query with
     | some s => s = "" || decisionMatchesQuery s.toLower d
     | none => true) &&
    (match tags with
     | some ts => ts.isEmpty || ts.any (fun t => d.tags.contains t)
     | none => true)

/-- The try-block of readProblems, identical in shape to the decisions
read path but scoped to the session problems file. -/
def parseProblemsFile : StoredFile → Except Unit (List Problem)
  | .json j =>
    match decodeProblems j with
    | some ps => .ok ps
    | none => .error ()
  | _ => .error ()

/-- readProblems (readInvestigations in the older generation): failures
collapse to the empty collection. -/
def readProblems (f : StoredFile) : List Problem :=
  match parseProblemsFile f with
  | .ok ps => ps
  | .error _ => []

/-- addProblem: read, append, write the whole file back. -/
def addProblem (f : StoredFile) (p : Problem) : StoredFile :=
  .json (encodeProblems (readProblems f ++ [p]))

/-- In-place mutation of the first list entry with the given id, leaving
every other entry untouched; this is what the JS find-then-mutate does to
the array that is then written back. -/
def updateFirst (ps : List Problem) (id : String)
    (upd : Problem → Problem) : List Problem :=
  match ps with
  | [] => []
  | p :: rest =>
    if p.id = id then upd p :: rest else p :: updateFirst rest id upd

/-- updateProblem (updateInvestigation in the older generation): read the
full sequence, locate the entry by id; when none matches return null and
do not write, otherwise mutate it, write the full sequence back, and
return the mutated entry (storage.ts lines 109-116).  The result pairs
the resulting file state with the returned value. -/
def updateProblem (f : StoredFile) (id : String)
    (upd : Problem → Problem) : StoredFile × Option Problem :=
  let ps := readProblems f
  match ps.find? (fun p => p.id == id) with
  | none => (f, none)
  | some p =>
    (.json (encodeProblems (updateFirst ps id upd)), some (upd p))

/-- getProblem: lookup by id with no write. -/
def getProblem (f : StoredFile) (id : String) : Option Problem :=
  (readProblems f).find? (fun p => p.id == id)

/-- writeMetadata, called from the Storage constructor: write the session
metadata file only when it does not already exist (storage.ts lines
25-35).  The argument is the current metadata file, the result the file
after the call. -/
def writeMetadata (existing : Option SessionMetadata)
    (sessionId projectSlug cwd now : String) : Option SessionMetadata :=
  match existing with
  | some m => some m
  | none =>
    some { session_id := sessionId, project_slug := projectSlug, cwd := cwd,
           started_at := now }

/-! ### Project identity resolver (project-slug.ts)

The resolver hashes either the trimmed git remote URL or the working
directory with SHA-256 and keeps the first 12 hex characters.  SHA-256
(FIPS 180-4) is embedded below over Nat with explicit reduction mod 2^32,
operating on the UTF-8 bytes of the input string. -/

/-- Right rotation of a 32-bit word. -/
def rotr32 (x n : Nat) : Nat :=
  ((x >>> n) ||| (x <<< (32 - n))) % 2 ^ 32

/-- The SHA-256 choice function; bitwise NOT on 32 bits is XOR with the
all-ones word. -/
def ch32 (x y z : Nat) : Nat :=
  (x &&& y) ^^^ ((x ^^^ 0xffffffff) &&& z)

/-- The SHA-256 majority function. -/
def maj32 (x y z : Nat) : Nat :=
  (x &&& y) ^^^ (x &&& z) ^^^ (y &&& z)

/-- The big sigma-0 word function. -/
def bsig0 (x : Nat) : Nat := rotr32 x 2 ^^^ rotr32 x 13 ^^^ rotr32 x 22

/-- The big sigma-1 word function. -/
def bsig1 (x : Nat) : Nat := rotr32 x 6 ^^^ rotr32 x 11 ^^^ rotr32 x 25

/-- The small sigma-0 word function. -/
def ssig0 (x : Nat) : Nat := rotr32 x 7 ^^^ rotr32 x 18 ^^^ (x >>> 3)

/-- The small sigma-1 word function. -/
def ssig1 (x : Nat) : Nat := rotr32 x 17 ^^^ rotr32 x 19 ^^^ (x >>> 10)

/-- The eight SHA-256 initial hash words, in decimal. -/
def sha256Init : List Nat :=
  [1779033703, 3144134277, 1013904242,
   2773480762, 1359893119, 2600822924,
   528734635, 1541459225]

/-- The 64 SHA-256 round constant words, in decimal. -/
def sha256K : List Nat :=
  [1116352408, 1899447441, 3049323471,
   3921009573, 961987163, 1508970993,
   2453635748, 2870763221, 3624381080,
   310598401, 607225278, 1426881987,
   1925078388, 2162078206, 2614888103,
   3248222580, 3835390401, 4022224774,
   264347078, 604807628, 770255983,
   1249150122, 1555081692, 1996064986,
   2554220882, 2821834349, 2952996808,
   3210313671, 3336571891, 3584528711,
   113926993, 338241895, 666307205,
   773529912, 1294757372, 1396182291,
   1695183700, 1986661051, 2177026350,
   2456956037, 2730485921, 2820302411,
   3259730800, 3345764771, 3516065817,
   3600352804, 4094571909, 275423344,
   430227734, 506948616, 659060556,
   883997877, 958139571, 1322822218,
   1537002063, 1747873779, 1955562222,
   2024104815, 2227730452, 2361852424,
   2428436474, 2756734187, 3204031479,
   3329325298]

/-- UTF-8 encoding of one code point, as byte values. -/
def utf8Bytes (c : Nat) : List Nat :=
  if c < 0x80 then [c]
  else if c < 0x800 then
    [0xc0 + c / 64, 0x80 + c % 64]
  else if c < 0x10000 then
    [0xe0 + c / 4096, 0x80 + c / 64 % 64, 0x80 + c % 64]
  else
    [0xf0 + c / 262144, 0x80 + c / 4096 % 64, 0x80 + c / 64 % 64,
     0x80 + c % 64]

/-- The UTF-8 bytes of a string, the input Node's hash update consumes. -/
def strBytes (s : String) : List Nat :=
  (s.data.map fun c => utf8Bytes c.toNat).flatten

/-- Big-endian serialisation of a value into the given number of bytes. -/
def toBytesBE : Nat → Nat → List Nat
  | 0, _ => []
  | n + 1, v => toBytesBE n (v / 256) ++ [v % 256]

/-- SHA-256 message padding: a 0x80 byte, zeros to 56 mod 64, then the
64-bit big-endian bit length. -/
def padMessage (msg : List Nat) : List Nat :=
  msg ++ 0x80 :: (List.replicate ((55 + 64 - msg.length % 64) % 64) 0 ++
    toBytesBE 8 (8 * msg.length))

/-- Big-endian 32-bit words from a byte list. -/
def wordsBE : List Nat → List Nat
  | b0 :: b1 :: b2 :: b3 :: rest =>
    (((b0 * 256 + b1) * 256 + b2) * 256 + b3) :: wordsBE rest
  | _ => []

/-- Split a word list into blocks of sixteen words; the first argument
is fuel, always instantiated with the list length, which bounds the
number of blocks since every non-empty step drops at least one word. -/
def chunkWordsAux : Nat → List Nat → List (List Nat)
  | 0, _ => []
  | _ + 1, [] => []
  | n + 1, x :: rest =>
    (x :: rest).take 16 :: chunkWordsAux n ((x :: rest).drop 16)

/-- Split a word list into blocks of sixteen words. -/
def chunkWords (l : List Nat) : List (List Nat) :=
  chunkWordsAux l.length l

/-- Extend a message schedule by the given number of words. -/
def extendW : Nat → List Nat → List Nat
  | 0, w => w
  | n + 1, w =>
    let wd := fun k => w.getD (w.length - k) 0
    extendW n
      (w ++ [(ssig1 (wd 2) + wd 7 + ssig0 (wd 15) + wd 16) % 2 ^ 32])

/-- One SHA-256 compression round on the eight working variables, fed one
round-constant and schedule-word pair. -/
def compressRound (vars : List Nat) (kw : Nat × Nat) : List Nat :=
  match vars with
  | [a, b, c, d, e, f, g, h] =>
    let t1 := (h + bsig1 e + ch32 e f g + kw.1 + kw.2) % 2 ^ 32
    let t2 := (bsig0 a + maj32 a b c) % 2 ^ 32
    [(t1 + t2) % 2 ^ 32, a, b, c, (d + t1) % 2 ^ 32, e, f, g]
  | other => other

/-- Compress one sixteen-word block into the running hash value. -/
def compressBlock (hv : List Nat) (block : List Nat) : List Nat :=
  let vars := (sha256K.zip (extendW 48 block)).foldl compressRound hv
  (hv.zip vars).map fun p => (p.1 + p.2) % 2 ^ 32

/-- The eight SHA-256 hash words of a byte message. -/
def sha256Words (msg : List Nat) : List Nat :=
  (chunkWords (wordsBE (padMessage msg))).foldl compressBlock sha256Init

/-- The lowercase hex digit for a value below sixteen. -/
def hexChar (n : Nat) : Char :=
  if n < 10 then Char.ofNat (48 + n) else Char.ofNat (87 + n)

/-- The eight hex characters of one 32-bit word, high nibble first. -/
def wordHexChars (w : Nat) : List Char :=
  (List.range 8).map fun i => hexChar (w >>> (28 - 4 * i) % 16)

/-- The 64 hex characters of the SHA-256 digest of a string. -/
def sha256HexChars (s : String) : List Char :=
  ((sha256Words (strBytes s)).map wordHexChars).flatten

/-- shortHash: the hex digest truncated to its first 12 characters
(project-slug.ts lines 5-7). -/
def shortHash (s : String) : String :=
  ⟨(sha256HexChars s).take 12⟩

/-- Leading and trailing whitespace stripped from a character list. -/
def trimChars (l : List Char) : List Char :=
  ((l.dropWhile Char.isWhitespace).reverse.dropWhile
    Char.isWhitespace).reverse

/-- The trim method applied to the raw git output. -/
def strTrim (s : String) : String :=
  ⟨trimChars s.data⟩

/-- getProjectSlug: hash the trimmed git remote URL when the lookup
succeeds and yields a non-empty string, otherwise hash the working
directory; a lookup error is swallowed (project-slug.ts lines 15-27).
The outcome of the external git invocation is passed in as data. -/
def getProjectSlug (gitRemote : Except Unit String) (cwd : String) :
    String :=
  match gitRemote with
  | .ok out =>
    let remote := strTrim out
    if remote = "" then shortHash cwd else shortHash remote
  | .error _ => shortHash cwd

/-! ### Lifecycle hooks (hook-helpers.ts)

Each hook is modelled as a pure function from the observable environment
(the parsed standard-input payload and the relevant file states) to an
optional wire object: none models the silent successful exit with no
output, some models writing exactly one JSON object to standard output.
Collection files read by the hooks are modelled at the decoded level: a
file whose elements do not decode is treated like the malformed files the
surrounding try/catch absorbs. -/

/-- The wire object a hook writes when it has something to contribute. -/
structure HookOutput where
  continue' : Bool
  suppressOutput : Bool
  systemMessage : String
deriving DecidableEq, Repr

/-- The observable state of one session directory: its metadata file and
its problems file. -/
structure SessionDirState where
  metadataFile : StoredFile
  problemsFile : StoredFile

/-- findLatestSessionDir: scan the session directories, keeping the one
whose metadata file has the strictly greatest modification time; entries
whose metadata stat fails (mtime none) are skipped (hook-helpers.ts lines
24-41). -/
def findLatestSessionDir (sessions : List (Option Nat × SessionDirState)) :
    Option SessionDirState :=
  (sessions.foldl
    (fun latest s =>
      match s.1 with
      | none => latest
      | some m =>
        match latest with
        | none => some (s.2, m)
        | some (_, lm) => if m > lm then some (s.2, m) else latest)
    none).map (·.1)

/-- The session id recovered from a metadata file: its session_id string
field, or the empty string when the file is unreadable, unparseable, or
lacks the field (hook-helpers.ts lines 81-87). -/
def metaSessionId (f : StoredFile) : String :=
  match f with
  | .json j =>
    match (j.getField "session_id").bind decodeString with
    | some s => s
    | none => ""
  | _ => ""

/-- Array.join with the newline separator. -/
def joinLines : List String → String
  | [] => ""
  | [s] => s
  | s :: rest => s ++ "\n" ++ joinLines rest

/-- The label the digest prints for an approach outcome. -/
def outcomeLabel : Outcome → String
  | .failed => "FAILED"
  | .succeeded => "SUCCEEDED"

/-- The truncated detail text of one approach line: details longer than
120 characters are cut to 120 and an ellipsis marker appended
(hook-helpers.ts lines 107-109). -/
def truncDetails (details : String) : String :=
  if details.length > 120 then details.take 120 ++ "..." else details

/-- One approach line of the digest's OPEN section (hook-helpers.ts line
110). -/
def approachLine (a : Approach) : String :=
  "  - " ++ outcomeLabel a.outcome ++ ": " ++ a.approach ++ " — " ++
    truncDetails a.details

/-- The digest lines for one open problem: its header, its approach
lines, and a blank separator (hook-helpers.ts lines 102-114). -/
def openProblemLines (p : Problem) : List String :=
  ("[OPEN] " ++ p.problem) :: p.approaches.map approachLine ++ [""]

/-- The number of failed approaches of a problem. -/
def failCount (p : Problem) : Nat :=
  (p.approaches.filter fun a => a.outcome == Outcome.failed).length

/-- The resolution text the digest prints: the recorded resolution, or
the word resolved when it is missing or empty (a falsy JS string). -/
def resolutionText (p : Problem) : String :=
  match p.resolution with
  | some r => if r = "" then "resolved" else r
  | none => "resolved"

/-- The suffix of a resolved summary line: a failed-approach count when
it is positive, pluralised past one (hook-helpers.ts line 123). -/
def failSuffix (p : Problem) : String :=
  if failCount p > 0 then
    " (" ++ toString (failCount p) ++ " failed approach" ++
      (if failCount p > 1 then "es" else "") ++ ")"
  else ""

/-- One summary line of the digest's RESOLVED section (hook-helpers.ts
line 124). -/
def resolvedLine (p : Problem) : String :=
  "- " ++ p.problem ++ " → " ++ resolutionText p ++ failSuffix p

/-- The problems read by the pre-compaction hook: none models a missing
file or one the try/catch absorbs as malformed. -/
def hookProblems (f : StoredFile) : Option (List Problem) :=
  match f with
  | .json j => decodeProblems j
  | _ => none

/-- The decisions read by a hook, with the same failure collapse. -/
def hookDecisions (f : StoredFile) : Option (List Decision) :=
  match f with
  | .json j => decodeDecisions j
  | _ => none

/-- The problems section of the digest: open problems in full detail,
resolved problems as one summary line each (hook-helpers.ts lines
92-132). -/
def problemsSection (f : StoredFile) : List String :=
  match hookProblems f with
  | none => []
  | some ps =>
    if ps.isEmpty then []
    else
      let openPs := ps.filter fun p => !(p.status == Status.resolved)
      let resolvedPs := ps.filter fun p => p.status == Status.resolved
      (if openPs.isEmpty then []
       else "OPEN PROBLEMS:" :: (openPs.map openProblemLines).flatten) ++
      (if resolvedPs.isEmpty then []
       else ("RESOLVED PROBLEMS:" :: resolvedPs.map resolvedLine) ++ [""])

/-- One bullet of the digest's decisions section (hook-helpers.ts line
151). -/
def decisionLine (d : Decision) : String :=
  "- " ++ d.topic ++ ": " ++ d.chosen ++ " — " ++ d.rationale

/-- The decisions section of the digest: the current session's decisions
as bullets, then a count of decisions from other sessions when positive;
an empty recovered session id disables the session filter
(hook-helpers.ts lines 134-164). -/
def decisionsSection (f : StoredFile) (sessionId : String) : List String :=
  match hookDecisions f with
  | none => []
  | some ds =>
    let sessionDecs :=
      if sessionId = "" then ds
      else ds.filter fun d => d.session_id == sessionId
    let other := ds.length - sessionDecs.length
    (if sessionDecs.isEmpty then []
     else ("DECISIONS THIS SESSION:" :: sessionDecs.map decisionLine) ++
       [""]) ++
    (if other > 0 then
      [toString other ++
        " additional project decision(s) from prior sessions available via search_decisions."]
     else [])

/-- The environment of one pre-compaction hook invocation.  inputCwd is
the cwd field of the parsed standard input; none covers both unparseable
input and a missing field. -/
structure PreCompactEnv where
  inputCwd : Option String
  projectExists : Bool
  sessions : List (Option Nat × SessionDirState)
  decisionsFile : StoredFile

/-- The digest header line. -/
def preCompactHeader : String :=
  "DECISION LOG (preserved through compaction) — use get_context for full details."

/-- runPreCompact (hook-helpers.ts lines 67-179): silently exit without
output when the input yields no usable cwd, the project directory does
not exist, no session directory is found, or no lines were produced;
otherwise emit the single wire object carrying the digest. -/
def runPreCompact (env : PreCompactEnv) : Option HookOutput :=
  match env.inputCwd with
  | none => none
  | some cwd =>
    if cwd = "" then none
    else if !env.projectExists then none
    else
      match findLatestSessionDir env.sessions with
      | none => none
      | some sess =>
        let sessionId := metaSessionId sess.metadataFile
        let lines := problemsSection sess.problemsFile ++
          decisionsSection env.decisionsFile sessionId
        if lines.isEmpty then none
        else
          some { continue' := true, suppressOutput := true,
                 systemMessage :=
                   joinLines (preCompactHeader :: "" :: lines) }

/-- The environment of one session-start hook invocation. -/
structure SessionStartEnv where
  inputCwd : Option String
  decisionsFile : StoredFile

/-- runSessionStart (hook-helpers.ts lines 43-65): silently exit without
output when the input yields no usable cwd, the decisions file is absent,
unreadable or unparseable, its content is not an array, or the array is
empty; otherwise emit the single wire object with the decision count.
The array-length check is performed on the raw parsed array, without
decoding its elements. -/
def runSessionStart (env : SessionStartEnv) : Option HookOutput :=
  match env.inputCwd with
  | none => none
  | some cwd =>
    if cwd = "" then none
    else
      match env.decisionsFile with
      | .json (.arr xs) =>
        if xs.isEmpty then none
        else
          some { continue' := true, suppressOutput := true,
                 systemMessage :=
                   "Decision log: " ++ toString xs.length ++
                     " project decision(s) on record from prior sessions. Use search_decisions to query history." }
      | _ => none

/-! ### Shared helper lemmas -/

theorem readDecisions_json_encode (ds : List Decision) :
    readDecisions (.json (encodeDecisions ds)) = ds := by
  simp [readDecisions, parseDecisionsFile, decodeDecisions_encode]

theorem readDecisions_addDecision (f : StoredFile) (d : Decision) :
    readDecisions (addDecision f d) = readDecisions f ++ [d] := by
  simp [addDecision, readDecisions_json_encode]

theorem readDecisions_foldl (ds : List Decision) :
    ∀ f : StoredFile,
      readDecisions (ds.foldl addDecision f) = readDecisions f ++ ds := by
  induction ds with
  | nil => intro f; simp
  | cons d rest ih =>
    intro f
    rw [List.foldl_cons, ih, readDecisions_addDecision, List.append_assoc]
    rfl

theorem readProblems_json_encode (ps : List Problem) :
    readProblems (.json (encodeProblems ps)) = ps := by
  simp [readProblems, parseProblemsFile, decodeProblems_encode]

theorem any_contains_comm (xs ys : List String) :
    (xs.any fun t => ys.contains t) = (ys.any fun t => xs.contains t) := by
  rw [← Bool.coe_iff_coe]
  simp only [List.any_eq_true]
  constructor <;> rintro ⟨x, h1, h2⟩
  · exact ⟨x, by simpa using h2, by simpa using h1⟩
  · exact ⟨x, by simpa using h2, by simpa using h1⟩

theorem append_ne_empty_of_left (a b : String) (h : a ≠ "") :
    a ++ b ≠ "" := by
  intro hab
  apply h
  have hd : a.data ++ b.data = ([] : List Char) := by
    have := congrArg String.data hab
    rwa [String.data_append a b] at this
  have ha : a.data = [] := (List.append_eq_nil.mp hd).1
  cases a with
  | mk la =>
    simp only at ha
    rw [ha]

/-! ### Claim theorems -/

/-- The pass predicate of the Query Engine contract, stated from the
claim's wording rather than the code: with a query present and non-empty,
the lowercased query must occur in the lowercased topic, chosen option,
rationale, or some option's name or description; with a tag filter present
and non-empty, the decision's tag list must share at least one element
with the filter list; each absent or empty filter passes everything. -/
def specSearchPass (query : Option String) (tags : Option (List String))
    (d : Decision) : Bool :=
  (match query with
   | none => true
   | some s =>
     if s = "" then true
     else
       strContains d.topic.toLower s.toLower ||
       strContains d.chosen.toLower s.toLower ||
       strContains d.rationale.toLower s.toLower ||
       d.options.any fun o =>
         strContains o.name.toLower s.toLower ||
         strContains o.description.toLower s.toLower) &&
  (match tags with
   | none => true
   | some ts =>
     if ts = [] then true else d.tags.any fun t => ts.contains t)

/-- C1: searchDecisions returns exactly the stored decisions that pass
both the text filter and the tag filter of the claim, in the collection's
insertion order: it equals a filter of readDecisions by the claim's pass
predicate. -/
theorem searchDecisions_exactly_filter (f : StoredFile)
    (query : Option String) (tags : Option (List String)) :
    searchDecisions f query tags =
      (readDecisions f).filter (specSearchPass query tags) := by
  unfold searchDecisions
  apply List.filter_congr
  intro d _
  unfold specSearchPass
  congr 1
  · cases query with
    | none => rfl
    | some s =>
      by_cases hs : s = "" <;> simp [hs, decisionMatchesQuery]
  · cases tags with
    | none => rfl
    | some ts =>
      by_cases ht : ts = []
      · simp [ht]
      · simp only [ht, if_neg, List.isEmpty_eq_false_iff_exists_mem]
        rw [any_contains_comm]
        simp [List.isEmpty, ht]
        cases ts with
        | nil => exact absurd rfl ht
        | cons a as => simp

/-- C2: starting from any state that reads as the empty collection (an
absent or empty decisions file), a sequence of addDecision calls followed
by readDecisions yields exactly the added decisions, in call order, each
preserved unchanged. -/
theorem addDecision_readDecisions_roundtrip (ds : List Decision)
    (f : StoredFile) (h : readDecisions f = []) :
    readDecisions (ds.foldl addDecision f) = ds := by
  rw [readDecisions_foldl, h, List.nil_append]

/-- Witness for C2 at a concrete two-decision run from the absent file. -/
theorem addDecision_readDecisions_roundtrip_witness :
    readDecisions (StoredFile.absent) = [] ∧
    readDecisions
      ([(⟨"d1", "2024-01-01T00:00:00Z", "s1", "cache backend",
          [⟨"A", "in-memory"⟩, ⟨"B", "disk-backed"⟩], "B",
          "durability required", ["storage"]⟩ : Decision),
        ⟨"d2", "2024-01-02T00:00:00Z", "s2", "retry policy", [], "none",
          "keep it simple", []⟩].foldl addDecision StoredFile.absent) =
      [⟨"d1", "2024-01-01T00:00:00Z", "s1", "cache backend",
          [⟨"A", "in-memory"⟩, ⟨"B", "disk-backed"⟩], "B",
          "durability required", ["storage"]⟩,
        ⟨"d2", "2024-01-02T00:00:00Z", "s2", "retry policy", [], "none",
          "keep it simple", []⟩] :=
  ⟨rfl, addDecision_readDecisions_roundtrip _ StoredFile.absent rfl⟩

/-- A decision tagged with the capitalised tag Storage, used to exhibit
the case-sensitivity of the tag filter. -/
def storageTaggedDecision : Decision :=
  ⟨"d1", "2024-01-01T00:00:00Z", "s1", "cache backend",
   [⟨"A", "in-memory"⟩, ⟨"B", "disk-backed"⟩], "B", "durability required",
   ["Storage"]⟩

/-- C10: the tag filter matches by exact, case-sensitive string equality:
with a non-empty tag filter a decision is returned exactly when it would
pass with no tag filter and some filter tag is literally an element of its
tag list; concretely, the decision tagged Storage is not returned for the
filter tag storage but is returned for Storage. -/
theorem searchDecisions_tags_exact (f : StoredFile) (q : Option String)
    (ts : List String) (d : Decision) (h : ts ≠ []) :
    (d ∈ searchDecisions f q (some ts) ↔
      d ∈ searchDecisions f q none ∧ ∃ t ∈ ts, t ∈ d.tags) ∧
    searchDecisions (.json (encodeDecisions [storageTaggedDecision])) none
      (some ["storage"]) = [] ∧
    searchDecisions (.json (encodeDecisions [storageTaggedDecision])) none
      (some ["Storage"]) = [storageTaggedDecision] := by
  refine ⟨?_, ?_, ?_⟩
  · have hts : ts.isEmpty = false := by
      cases ts with
      | nil => exact absurd rfl h
      | cons a as => rfl
    unfold searchDecisions
    simp only [List.mem_filter, hts, Bool.false_or, Bool.and_eq_true,
      List.any_eq_true]
    simp only [List.elem_eq_mem, decide_eq_true_eq]
    tauto
  · rw [show searchDecisions (.json (encodeDecisions
        [storageTaggedDecision])) none (some ["storage"]) =
        (readDecisions (.json (encodeDecisions [storageTaggedDecision]))).filter
          (fun d => true && (["storage"].isEmpty ||
            ["storage"].any fun t => d.tags.contains t)) from rfl,
      readDecisions_json_encode]
    decide
  · rw [show searchDecisions (.json (encodeDecisions
        [storageTaggedDecision])) none (some ["Storage"]) =
        (readDecisions (.json (encodeDecisions [storageTaggedDecision]))).filter
          (fun d => true && (["Storage"].isEmpty ||
            ["Storage"].any fun t => d.tags.contains t)) from rfl,
      readDecisions_json_encode]
    decide

/-- Witness for C10 at a concrete file, query, tag filter and decision. -/
theorem searchDecisions_tags_exact_witness :
    (storageTaggedDecision ∈
        searchDecisions (.json (encodeDecisions [storageTaggedDecision]))
          none (some ["Storage"]) ↔
      storageTaggedDecision ∈
          searchDecisions (.json (encodeDecisions [storageTaggedDecision]))
            none none ∧
        ∃ t ∈ ["Storage"], t ∈ storageTaggedDecision.tags) ∧
    searchDecisions (.json (encodeDecisions [storageTaggedDecision])) none
      (some ["storage"]) = [] :=
  ⟨(searchDecisions_tags_exact
      (.json (encodeDecisions [storageTaggedDecision])) none ["Storage"]
      storageTaggedDecision (by decide)).1,
   (searchDecisions_tags_exact
      (.json (encodeDecisions [storageTaggedDecision])) none ["Storage"]
      storageTaggedDecision (by decide)).2.1⟩

/-- C3: when no stored problem has the given id, updateProblem returns
the not-found signal and leaves the file state unchanged; when the id
matches, it mutates the first matching entry, writes the full sequence
back, and returns the mutated entry. -/
theorem updateProblem_not_found_no_write (f : StoredFile) (id : String)
    (upd : Problem → Problem) :
    ((∀ p ∈ readProblems f, p.id ≠ id) → updateProblem f id upd = (f, none)) ∧
    (∀ p, (readProblems f).find? (fun q => q.id == id) = some p →
      updateProblem f id upd =
        (.json (encodeProblems (updateFirst (readProblems f) id upd)),
         some (upd p))) := by
  constructor
  · intro h
    unfold updateProblem
    have hfind : (readProblems f).find? (fun q => q.id == id) = none := by
      rw [List.find?_eq_none]
      intro p hp
      simpa using h p hp
    simp [hfind]
  · intro p hp
    unfold updateProblem
    simp [hp]

/-- Witness for C3: a one-problem store hit with an unknown id and with
the stored id. -/
theorem updateProblem_not_found_no_write_witness :
    updateProblem
        (.json (encodeProblems
          [⟨"p0", "s1", "X fails intermittently", .open_,
            "2024-01-01T00:00:00Z", [], none⟩]))
        "missing" (fun p => { p with status := .resolved }) =
      (.json (encodeProblems
        [⟨"p0", "s1", "X fails intermittently", .open_,
          "2024-01-01T00:00:00Z", [], none⟩]), none) ∧
    updateProblem
        (.json (encodeProblems
          [⟨"p0", "s1", "X fails intermittently", .open_,
            "2024-01-01T00:00:00Z", [], none⟩]))
        "p0" (fun p => { p with status := .resolved }) =
      (.json (encodeProblems
        (updateFirst
          (readProblems (.json (encodeProblems
            [⟨"p0", "s1", "X fails intermittently", .open_,
              "2024-01-01T00:00:00Z", [], none⟩])))
          "p0" (fun p => { p with status := .resolved }))),
       some ({ id := "p0", session_id := "s1",
               problem := "X fails intermittently", status := .resolved,
               created_at := "2024-01-01T00:00:00Z", approaches := [],
               resolution := none } : Problem)) :=
  ⟨(updateProblem_not_found_no_write
      (.json (encodeProblems
        [⟨"p0", "s1", "X fails intermittently", .open_,
          "2024-01-01T00:00:00Z", [], none⟩]))
      "missing" (fun p => { p with status := .resolved })).1
    (by rw [readProblems_json_encode]; decide),
   (updateProblem_not_found_no_write
      (.json (encodeProblems
        [⟨"p0", "s1", "X fails intermittently", .open_,
          "2024-01-01T00:00:00Z", [], none⟩]))
      "p0" (fun p => { p with status := .resolved })).2
    ⟨"p0", "s1", "X fails intermittently", .open_, "2024-01-01T00:00:00Z",
     [], none⟩
    (by rw [readProblems_json_encode]; decide)⟩

/-- C4: readDecisions is total and never raises: an absent, unreadable or
unparseable decisions file reads as the empty sequence, as does parsed
content that is not a valid decisions array, and valid parsed content
reads as exactly the parsed sequence. -/
theorem readDecisions_never_raises (f : StoredFile) :
    (f = .absent ∨ f = .unreadable ∨ f = .notJson → readDecisions f = []) ∧
    (∀ j, f = .json j →
      (∀ ds, decodeDecisions j = some ds → readDecisions f = ds) ∧
      (decodeDecisions j = none → readDecisions f = [])) := by
  constructor
  · rintro (rfl | rfl | rfl) <;> rfl
  · rintro j rfl
    constructor
    · intro ds hds
      simp [readDecisions, parseDecisionsFile, hds]
    · intro hnone
      simp [readDecisions, parseDecisionsFile, hnone]

/-- Witness for C4 at the absent file and at a concrete parsed file. -/
theorem readDecisions_never_raises_witness :
    readDecisions StoredFile.absent = [] ∧
    readDecisions (.json (encodeDecisions [storageTaggedDecision])) =
      [storageTaggedDecision] :=
  ⟨(readDecisions_never_raises StoredFile.absent).1 (Or.inl rfl),
   ((readDecisions_never_raises
      (.json (encodeDecisions [storageTaggedDecision]))).2
      (encodeDecisions [storageTaggedDecision]) rfl).1
     [storageTaggedDecision]
     (decodeDecisions_encode [storageTaggedDecision])⟩

/-- C5: the Storage constructor writes session metadata only when the
file does not yet exist: an existing file is returned untouched, a second
construction after a first one changes nothing, and in particular the
start timestamp recorded by the first construction survives a second
construction for the same session id. -/
theorem writeMetadata_idempotent (existing : Option SessionMetadata)
    (sid slug cwd now sid2 slug2 cwd2 now2 : String) :
    (∀ m, existing = some m →
      writeMetadata existing sid slug cwd now = some m) ∧
    writeMetadata (writeMetadata existing sid slug cwd now) sid2 slug2
        cwd2 now2 =
      writeMetadata existing sid slug cwd now ∧
    writeMetadata (writeMetadata none sid slug cwd now) sid slug2 cwd2
        now2 =
      some ⟨sid, slug, cwd, now⟩ := by
  refine ⟨?_, ?_, rfl⟩
  · rintro m rfl
    rfl
  · cases existing <;> rfl

/-- Witness for C5 at a concrete pre-existing metadata file. -/
theorem writeMetadata_idempotent_witness :
    writeMetadata (some ⟨"s1", "slug1", "/w", "2024-01-01T00:00:00Z"⟩)
        "s1" "slug1" "/w" "2024-06-01T00:00:00Z" =
      some ⟨"s1", "slug1", "/w", "2024-01-01T00:00:00Z"⟩ :=
  (writeMetadata_idempotent
      (some ⟨"s1", "slug1", "/w", "2024-01-01T00:00:00Z"⟩) "s1" "slug1"
      "/w" "2024-06-01T00:00:00Z" "s1" "slug1" "/w"
      "2024-07-01T00:00:00Z").1
    ⟨"s1", "slug1", "/w", "2024-01-01T00:00:00Z"⟩ rfl

theorem compressRound_length (vars : List Nat) (kw : Nat × Nat) :
    (compressRound vars kw).length = vars.length := by
  unfold compressRound
  split
  · simp
  · rfl

theorem foldl_compressRound_length (l : List (Nat × Nat)) :
    ∀ vars : List Nat, (l.foldl compressRound vars).length = vars.length := by
  induction l with
  | nil => intro vars; rfl
  | cons x xs ih =>
    intro vars
    rw [List.foldl_cons, ih, compressRound_length]

theorem compressBlock_length (hv block : List Nat) (h : hv.length = 8) :
    (compressBlock hv block).length = 8 := by
  unfold compressBlock
  rw [List.length_map, List.length_zip, foldl_compressRound_length, h]
  decide

theorem sha256Words_length (msg : List Nat) :
    (sha256Words msg).length = 8 := by
  unfold sha256Words
  generalize chunkWords (wordsBE (padMessage msg)) = blocks
  have key : ∀ (bs : List (List Nat)) (hv : List Nat), hv.length = 8 →
      (bs.foldl compressBlock hv).length = 8 := by
    intro bs
    induction bs with
    | nil => intro hv hh; exact hh
    | cons b rest ih =>
      intro hv hh
      rw [List.foldl_cons]
      exact ih _ (compressBlock_length _ _ hh)
  exact key blocks sha256Init rfl

theorem wordHexChars_length (w : Nat) : (wordHexChars w).length = 8 := by
  simp [wordHexChars]

theorem flatten_map_wordHexChars_length (ws : List Nat) :
    ((ws.map wordHexChars).flatten).length = 8 * ws.length := by
  induction ws with
  | nil => rfl
  | cons w rest ih =>
    simp only [List.map_cons, List.flatten_cons, List.length_append, ih,
      wordHexChars_length, List.length_cons]
    ring

theorem sha256HexChars_length (s : String) :
    (sha256HexChars s).length = 64 := by
  unfold sha256HexChars
  rw [flatten_map_wordHexChars_length, sha256Words_length]

theorem shortHash_length (s : String) : (shortHash s).length = 12 := by
  have h : (shortHash s).length = ((sha256HexChars s).take 12).length := rfl
  rw [h, List.length_take, sha256HexChars_length]
  decide

theorem sha256_fips_vector_empty :
    String.mk (sha256HexChars "") =
      "e3b0c44298fc1c149afbf4c8996fb92427ae41e4649b934ca495991b7852b855" := by
  decide

theorem sha256_fips_vector_abc :
    String.mk (sha256HexChars "abc") =
      "ba7816bf8f01cfea414140de5dae2223b00361a396177a9cb410ff61f20015ad" := by
  decide

theorem sha256_fips_vector_two_block :
    String.mk (sha256HexChars
        "abcdbcdecdefdefgefghfghighijhijkijkljklmklmnlmnomnopnopq") =
      "248d6a61d20638b8e5c026930c3e6039a33ce45964ff2167f6ecedd419db06c1" := by
  decide

theorem hexChar_mem_digits (n : Nat) (h : n < 16) :
    hexChar n ∈ ("0123456789abcdef").data := by
  interval_cases n <;> decide

theorem shortHash_chars_hex (s : String) :
    ∀ c ∈ (shortHash s).data, c ∈ ("0123456789abcdef").data := by
  intro c hc
  have hc2 : c ∈ sha256HexChars s :=
    List.mem_of_mem_take (by exact hc)
  unfold sha256HexChars at hc2
  rw [List.mem_flatten] at hc2
  obtain ⟨chunk, hchunk, hcchunk⟩ := hc2
  rw [List.mem_map] at hchunk
  obtain ⟨w, _, rfl⟩ := hchunk
  unfold wordHexChars at hcchunk
  rw [List.mem_map] at hcchunk
  obtain ⟨i, _, rfl⟩ := hcchunk
  exact hexChar_mem_digits _ (Nat.mod_lt _ (by norm_num))

/-- C6: the project identity resolver is a pure function of the lookup
result and directory: a successful lookup yielding a non-empty trimmed
string is hashed, making the key independent of the working directory;
an empty or failed lookup falls back to hashing the working directory;
and every produced key is the 12-character prefix of the hex SHA-256
digest, so it has length 12 and only hex characters. -/
theorem getProjectSlug_spec (out cwd cwd2 : String) (e : Unit) :
    (strTrim out ≠ "" →
      getProjectSlug (.ok out) cwd = shortHash (strTrim out) ∧
      getProjectSlug (.ok out) cwd = getProjectSlug (.ok out) cwd2) ∧
    (strTrim out = "" → getProjectSlug (.ok out) cwd = shortHash cwd) ∧
    getProjectSlug (.error e) cwd = shortHash cwd ∧
    (∀ s : String, (shortHash s).length = 12 ∧
      (shortHash s).data = (sha256HexChars s).take 12 ∧
      ∀ c ∈ (shortHash s).data, c ∈ ("0123456789abcdef").data) := by
  refine ⟨?_, ?_, rfl, ?_⟩
  · intro h
    constructor <;> simp [getProjectSlug, h]
  · intro h
    simp [getProjectSlug, h]
  · intro s
    exact ⟨shortHash_length s, rfl, shortHash_chars_hex s⟩

/-- Witness for C6 at a concrete remote URL (with trailing newline, as
the git output carries) and two working directories, plus a concrete
empty-output fallback. -/
theorem getProjectSlug_spec_witness :
    (strTrim "https://github.com/obra/cc-plugin-decision-log.git\n" ≠ "" ∧
      getProjectSlug (.ok "https://github.com/obra/cc-plugin-decision-log.git\n")
          "/home/a" =
        shortHash
          (strTrim "https://github.com/obra/cc-plugin-decision-log.git\n") ∧
      getProjectSlug (.ok "https://github.com/obra/cc-plugin-decision-log.git\n")
          "/home/a" =
        getProjectSlug
          (.ok "https://github.com/obra/cc-plugin-decision-log.git\n")
          "/home/b") ∧
    (strTrim " \n" = "" ∧
      getProjectSlug (.ok " \n") "/home/a" = shortHash "/home/a") ∧
    getProjectSlug (.error ()) "/home/a" = shortHash "/home/a" := by
  have h1 := getProjectSlug_spec
    "https://github.com/obra/cc-plugin-decision-log.git\n" "/home/a"
    "/home/b" ()
  have h2 := getProjectSlug_spec " \n" "/home/a" "/home/b" ()
  refine ⟨⟨by decide, h1.1 (by decide)⟩, ⟨by decide, h2.2.1 (by decide)⟩,
    h1.2.2.1⟩

/-- C7: in the compaction digest the rendered detail text of an approach
line is the original details when they are at most 120 characters long,
and the first 120 characters followed by the ellipsis marker when they
are longer. -/
theorem approachLine_truncation (a : Approach) :
    (a.details.length ≤ 120 →
      approachLine a =
        "  - " ++ outcomeLabel a.outcome ++ ": " ++ a.approach ++ " — " ++
          a.details) ∧
    (a.details.length > 120 →
      approachLine a =
        "  - " ++ outcomeLabel a.outcome ++ ": " ++ a.approach ++ " — " ++
          (a.details.take 120 ++ "...")) := by
  constructor
  · intro h
    unfold approachLine truncDetails
    rw [if_neg (by omega)]
  · intro h
    unfold approachLine truncDetails
    rw [if_pos h]

/-- Witness for C7 at a short-detail and an overlong-detail approach. -/
theorem approachLine_truncation_witness :
    ((⟨"add retry", .failed, "still flaky", "t1"⟩ : Approach).details.length
        ≤ 120 ∧
      approachLine ⟨"add retry", .failed, "still flaky", "t1"⟩ =
        "  - " ++ outcomeLabel .failed ++ ": " ++ "add retry" ++ " — " ++
          "still flaky") ∧
    ((⟨"grind", .succeeded, ⟨List.replicate 121 'x'⟩, "t2"⟩ :
          Approach).details.length > 120 ∧
      approachLine ⟨"grind", .succeeded, ⟨List.replicate 121 'x'⟩, "t2"⟩ =
        "  - " ++ outcomeLabel .succeeded ++ ": " ++ "grind" ++ " — " ++
          ((⟨List.replicate 121 'x'⟩ : String).take 120 ++ "...")) :=
  ⟨⟨by decide,
    (approachLine_truncation ⟨"add retry", .failed, "still flaky", "t1"⟩).1
      (by decide)⟩,
   ⟨by decide,
    (approachLine_truncation
        ⟨"grind", .succeeded, ⟨List.replicate 121 'x'⟩, "t2"⟩).2
      (by decide)⟩⟩

/-- A resolved problem with exactly two failed approaches before the
successful one. -/
def twoFailedProblem : Problem :=
  ⟨"p1", "s1", "auth bug", .resolved, "2024-01-01T00:00:00Z",
   [⟨"add retry", .failed, "still flaky", "t1"⟩,
    ⟨"bump timeout", .failed, "no change", "t2"⟩,
    ⟨"fix race", .succeeded, "works", "t3"⟩],
   some "root cause: race in Y"⟩

/-- C8 counterexample: a resolved problem with exactly two failed
approaches renders with the suffix " (2 failed approaches)", and the
string "(2 failed)" claimed by the specification does not occur in the
line at all. -/
theorem resolvedLine_counterexample :
    failCount twoFailedProblem = 2 ∧
    resolvedLine twoFailedProblem =
      "- auth bug → root cause: race in Y (2 failed approaches)" ∧
    strContains (resolvedLine twoFailedProblem) "(2 failed)" = false := by
  refine ⟨by decide, by decide, by decide⟩

/-- String append with the empty string on the right is the identity. -/
theorem str_append_empty (s : String) : s ++ "" = s := by
  cases s with
  | mk l =>
    show String.mk (l ++ []) = String.mk l
    rw [List.append_nil]

/-- C8 amended: every resolved problem renders as one summary line of
the form description → resolution, carrying a failed-approach count
suffix iff its failed-approach count is positive; in particular a
resolved problem with exactly two failed approaches carries the suffix
" (2 failed approaches)". -/
theorem resolvedLine_amended (p : Problem) :
    (failCount p = 0 →
      resolvedLine p = "- " ++ p.problem ++ " → " ++ resolutionText p) ∧
    (failCount p > 0 →
      resolvedLine p =
        "- " ++ p.problem ++ " → " ++ resolutionText p ++
          (" (" ++ toString (failCount p) ++ " failed approach" ++
            (if failCount p > 1 then "es" else "") ++ ")")) ∧
    (failCount p = 2 →
      resolvedLine p =
        "- " ++ p.problem ++ " → " ++ resolutionText p ++
          " (2 failed approaches)") := by
  refine ⟨?_, ?_, ?_⟩
  · intro h
    unfold resolvedLine failSuffix
    rw [h]
    rw [if_neg (by omega)]
    exact str_append_empty _
  · intro h
    unfold resolvedLine failSuffix
    rw [if_pos h]
  · intro h
    unfold resolvedLine failSuffix
    rw [h]
    rw [if_pos (by omega)]
    congr 1

/-- Witness for C8's amended theorem at the concrete two-failed problem
and at a problem with no failed approaches. -/
theorem resolvedLine_amended_witness :
    (failCount twoFailedProblem = 2 ∧
      resolvedLine twoFailedProblem =
        "- " ++ twoFailedProblem.problem ++ " → " ++
          resolutionText twoFailedProblem ++ " (2 failed approaches)") ∧
    (failCount (⟨"p2", "s1", "easy", .resolved, "t0", [], some "done"⟩ :
        Problem) = 0 ∧
      resolvedLine ⟨"p2", "s1", "easy", .resolved, "t0", [], some "done"⟩ =
        "- " ++ "easy" ++ " → " ++
          resolutionText ⟨"p2", "s1", "easy", .resolved, "t0", [],
            some "done"⟩) :=
  ⟨⟨by decide, (resolvedLine_amended twoFailedProblem).2.2 (by decide)⟩,
   ⟨by decide,
    (resolvedLine_amended
        ⟨"p2", "s1", "easy", .resolved, "t0", [], some "done"⟩).1
      (by decide)⟩⟩

/-- A problems file in which nothing was found produces no digest
lines. -/
theorem problemsSection_empty (f : StoredFile)
    (h : ∀ ps, hookProblems f = some ps → ps = []) :
    problemsSection f = [] := by
  unfold problemsSection
  cases hp : hookProblems f with
  | none => rfl
  | some ps =>
    have := h ps hp
    subst this
    rfl

/-- A decisions file in which nothing was found produces no digest
lines. -/
theorem decisionsSection_empty (f : StoredFile) (sessionId : String)
    (h : ∀ ds, hookDecisions f = some ds → ds = []) :
    decisionsSection f sessionId = [] := by
  unfold decisionsSection
  cases hd : hookDecisions f with
  | none => rfl
  | some ds =>
    have := h ds hd
    subst this
    by_cases hs : sessionId = "" <;> simp [hs]

/-- C9: the lifecycle hooks never fail the host and never emit a
malformed wrapper: with unparseable input or a missing working directory
each hook emits nothing and exits successfully; when nothing was found
to report (no problems and no decisions for the pre-compaction hook, no
non-empty decisions array for the session-start hook) the hook emits
nothing; and whenever a hook does emit, the single wire object carries
continue true, suppressOutput true, and a non-empty message. -/
theorem hooks_wire_contract (e : SessionStartEnv) (env : PreCompactEnv) :
    (e.inputCwd = none → runSessionStart e = none) ∧
    (env.inputCwd = none → runPreCompact env = none) ∧
    ((∀ xs, e.decisionsFile = .json (.arr xs) → xs = []) →
      runSessionStart e = none) ∧
    ((∀ sess, findLatestSessionDir env.sessions = some sess →
        (∀ ps, hookProblems sess.problemsFile = some ps → ps = []) ∧
        (∀ ds, hookDecisions env.decisionsFile = some ds → ds = [])) →
      runPreCompact env = none) ∧
    (∀ out, runSessionStart e = some out →
      out.continue' = true ∧ out.suppressOutput = true ∧
        out.systemMessage ≠ "") ∧
    (∀ out, runPreCompact env = some out →
      out.continue' = true ∧ out.suppressOutput = true ∧
        out.systemMessage ≠ "") := by
  obtain ⟨icwd, df⟩ := e
  obtain ⟨picwd, pex, sess, decf⟩ := env
  refine ⟨?_, ?_, ?_, ?_, ?_, ?_⟩
  · intro h
    cases icwd with
    | none => rfl
    | some c => exact Option.noConfusion h
  · intro h
    cases picwd with
    | none => rfl
    | some c => exact Option.noConfusion h
  · intro h
    cases icwd with
    | none => rfl
    | some c =>
      by_cases hc : c = ""
      · simp [runSessionStart, hc]
      · cases df with
        | json j =>
          cases j with
          | arr xs =>
            have hxs := h xs rfl
            subst hxs
            simp [runSessionStart, hc]
          | null => simp [runSessionStart, hc]
          | bool b => simp [runSessionStart, hc]
          | num n => simp [runSessionStart, hc]
          | str s => simp [runSessionStart, hc]
          | obj fs => simp [runSessionStart, hc]
        | absent => simp [runSessionStart, hc]
        | unreadable => simp [runSessionStart, hc]
        | notJson => simp [runSessionStart, hc]
  · intro h
    cases picwd with
    | none => rfl
    | some c =>
      by_cases hc : c = ""
      · simp [runPreCompact, hc]
      · cases hpex : pex with
        | false => simp [runPreCompact, hc, hpex]
        | true =>
          cases hfind : findLatestSessionDir sess with
          | none => simp [runPreCompact, hc, hpex, hfind]
          | some sd =>
            obtain ⟨h1, h2⟩ := h sd hfind
            have hp : problemsSection sd.problemsFile = [] :=
              problemsSection_empty _ h1
            have hd : decisionsSection decf (metaSessionId sd.metadataFile)
                = [] :=
              decisionsSection_empty _ _ h2
            simp [runPreCompact, hc, hpex, hfind, hp, hd]
  · intro out hout
    cases icwd with
    | none => exact Option.noConfusion hout
    | some c =>
      by_cases hc : c = ""
      · simp [runSessionStart, hc] at hout
      · cases df with
        | json j =>
          cases j with
          | arr xs =>
            by_cases hxs : xs.isEmpty
            · simp [runSessionStart, hc, hxs] at hout
            · simp [runSessionStart, hc, hxs] at hout
              refine ⟨by rw [← hout], by rw [← hout], ?_⟩
              rw [← hout]
              exact append_ne_empty_of_left _ _
                (append_ne_empty_of_left "Decision log: " _ (by decide))
          | null => simp [runSessionStart, hc] at hout
          | bool b => simp [runSessionStart, hc] at hout
          | num n => simp [runSessionStart, hc] at hout
          | str s => simp [runSessionStart, hc] at hout
          | obj fs => simp [runSessionStart, hc] at hout
        | absent => simp [runSessionStart, hc] at hout
        | unreadable => simp [runSessionStart, hc] at hout
        | notJson => simp [runSessionStart, hc] at hout
  · intro out hout
    cases picwd with
    | none => exact Option.noConfusion hout
    | some c =>
      by_cases hc : c = ""
      · simp [runPreCompact, hc] at hout
      · cases hpex : pex with
        | false => simp [runPreCompact, hc, hpex] at hout
        | true =>
          cases hfind : findLatestSessionDir sess with
          | none => simp [runPreCompact, hc, hpex, hfind] at hout
          | some sd =>
            by_cases hl : (problemsSection sd.problemsFile ++
                decisionsSection decf
                  (metaSessionId sd.metadataFile)).isEmpty
            · simp [runPreCompact, hc, hpex, hfind, hl] at hout
            · simp [runPreCompact, hc, hpex, hfind, hl] at hout
              refine ⟨by rw [← hout], by rw [← hout], ?_⟩
              rw [← hout]
              show joinLines (preCompactHeader :: "" :: _) ≠ ""
              rw [show ∀ rest, joinLines (preCompactHeader :: "" :: rest) =
                  preCompactHeader ++ "\n" ++ joinLines ("" :: rest)
                from fun rest => rfl]
              exact append_ne_empty_of_left _ _
                (append_ne_empty_of_left preCompactHeader "\n" (by decide))

/-- Witness for C9 at concrete environments: a missing-input invocation,
an empty store, and an emitting session-start invocation. -/
theorem hooks_wire_contract_witness :
    runSessionStart ⟨none, .absent⟩ = none ∧
    runPreCompact ⟨none, true, [], .absent⟩ = none ∧
    runSessionStart ⟨some "/w", .absent⟩ = none ∧
    runPreCompact ⟨some "/w", true, [], .absent⟩ = none ∧
    ((⟨true, true,
        "Decision log: 1 project decision(s) on record from prior sessions. Use search_decisions to query history."⟩ :
          HookOutput).continue' = true ∧
      (⟨true, true,
        "Decision log: 1 project decision(s) on record from prior sessions. Use search_decisions to query history."⟩ :
          HookOutput).suppressOutput = true ∧
      (⟨true, true,
        "Decision log: 1 project decision(s) on record from prior sessions. Use search_decisions to query history."⟩ :
          HookOutput).systemMessage ≠ "") := by
  refine ⟨(hooks_wire_contract ⟨none, .absent⟩
      ⟨none, true, [], .absent⟩).1 rfl,
    (hooks_wire_contract ⟨none, .absent⟩ ⟨none, true, [], .absent⟩).2.1 rfl,
    (hooks_wire_contract ⟨some "/w", .absent⟩
      ⟨some "/w", true, [], .absent⟩).2.2.1 (fun xs h => by cases h),
    (hooks_wire_contract ⟨some "/w", .absent⟩
      ⟨some "/w", true, [], .absent⟩).2.2.2.1
      (fun sd h => by cases h),
    (hooks_wire_contract
      ⟨some "/w", .json (encodeDecisions [storageTaggedDecision])⟩
      ⟨some "/w", true, [], .absent⟩).2.2.2.2.1
      ⟨true, true,
        "Decision log: 1 project decision(s) on record from prior sessions. Use search_decisions to query history."⟩
      (by decide)⟩

end DecisionLog
